import Mathlib

/-!
Shallow embedding of the subfile-data-service repository (crates
subfile-exchange and subfile-cli) and proofs about its specification.

Conventions used throughout:
* Byte strings are lists of natural numbers (one Nat per byte).
* Rust Result is Except, Rust Option is Option, u64 is Nat.  Subtraction
  is the truncated Nat subtraction; every claim below keeps the operands
  in the range where it agrees with checked u64 subtraction.
* Opaque collaborators that live outside the embedded source files (the
  digest check verify_chunk from file_hasher.rs, the filesystem reader
  read_chunk from file_reader.rs, the IPFS client, YAML serialization,
  the HTTP transport and the random number generator) are passed as
  explicit function parameters to the embedded control flow, which is
  translated from subfile-exchange/src and subfile-cli/src.
* A Rust panic is modelled as a distinguished error constructor.
-/

/-- A byte string: one natural number (the byte value) per position. -/
abbrev Bytes := List Nat

/-- FileMetaInfo (subfile-exchange): name of a file and the IPFS hash of
its ChunkFile document. -/
structure FileMetaInfo where
  name : String
  hash : String
deriving DecidableEq

/-- ChunkFile (subfile-exchange): the per-file chunk manifest with the
file length, chunk size and ordered chunk digests. -/
structure ChunkFile where
  file_name : String
  total_bytes : Nat
  chunk_size : Nat
  chunk_hashes : List String
deriving DecidableEq

/-- ChunkFileMeta (subfile-exchange): a FileMetaInfo paired with the
fetched ChunkFile. -/
structure ChunkFileMeta where
  meta_info : FileMetaInfo
  chunk_file : ChunkFile
deriving DecidableEq

/-- BlockRange of a subfile manifest. -/
structure BlockRange where
  start_block : Nat
  end_block : Option Nat
deriving DecidableEq

/-- SubfileManifest: the top level manifest document. -/
structure SubfileManifest where
  files : List FileMetaInfo
  file_type : String
  spec_version : String
  description : String
  chain_id : String
  block_range : BlockRange
deriving DecidableEq

/-- The downloader arguments used by SubfileDownloader::new
(subfile_client/mod.rs lines 42 to 57).  Fields not read by the embedded
functions (gateway url and so on) are kept where the constructor copies
them. -/
structure DownloaderArgs where
  ipfs_hash : String
  gateway_url : Option String
  indexer_endpoints : List String
  output_dir : String
  free_query_auth_token : Option String
  max_retry : Nat
deriving DecidableEq

/-- SubfileDownloader (subfile_client/mod.rs lines 27 to 39): the fields
read by the embedded functions.  The http client, ipfs client and the
two shared mutable maps are modelled at their use sites. -/
structure SubfileDownloader where
  ipfs_hash : String
  static_endpoints : List String
  output_dir : String
  free_query_auth_token : Option String
  chunk_max_retry : Nat
deriving DecidableEq

/-- SubfileDownloader::new (subfile_client/mod.rs lines 42 to 57): plain
field copies from the arguments. -/
def SubfileDownloader.new (args : DownloaderArgs) : SubfileDownloader :=
  { ipfs_hash := args.ipfs_hash
    static_endpoints := args.indexer_endpoints
    output_dir := args.output_dir
    free_query_auth_token := args.free_query_auth_token
    chunk_max_retry := args.max_retry }

/-- DownloadRangeRequest (subfile_client/mod.rs lines 375 to 384).  The
source field named end is called endByte here because end is a Lean
keyword; the shared file handle is modelled at the writing site. -/
structure DownloadRangeRequest where
  query_endpoint : String
  auth_token : Option String
  file_hash : String
  start : Nat
  endByte : Nat
  chunk_hash : String
  max_retry : Nat
deriving DecidableEq

/-- Outcomes of download_range_request that do not produce a request:
the graceful error when no endpoint can be chosen, and the Rust panic
raised by the out of bounds index chunk_hashes[i]. -/
inductive RangeRequestError where
  | noEndpoint
  | panicIndexOutOfBounds
deriving DecidableEq

/-- download_range_request (subfile_client/mod.rs lines 330 to 372).
The rng driven choose is modelled by the extra argument pick: choose
returns none exactly on an empty list and otherwise some element, here
the element at index pick mod length.  The indexing
chunk_hashes[i as usize] panics in Rust when i is out of bounds, which
is modelled by the panicIndexOutOfBounds error. -/
def downloadRangeRequest (d : SubfileDownloader) (meta : ChunkFileMeta)
    (queryEndpoints : List (String × String)) (i : Nat) (pick : Nat) :
    Except RangeRequestError DownloadRangeRequest :=
  match queryEndpoints[pick % queryEndpoints.length]? with
  | none => .error .noEndpoint
  | some pair =>
    let url := pair.2
    let query_endpoint := url ++ "/subfiles/id/" ++ d.ipfs_hash
    let file_hash := meta.meta_info.hash
    let startPos := i * meta.chunk_file.chunk_size
    let endPos := min (startPos + meta.chunk_file.chunk_size) meta.chunk_file.total_bytes - 1
    match meta.chunk_file.chunk_hashes[i]? with
    | none => .error .panicIndexOutOfBounds
    | some chunk_hash =>
      .ok { query_endpoint := query_endpoint
            auth_token := d.free_query_auth_token
            file_hash := file_hash
            start := startPos
            endByte := endPos
            chunk_hash := chunk_hash
            max_retry := d.chunk_max_retry }

/-- The number of loop iterations, hence spawned per chunk tasks, of
download_chunk_file (subfile_client/mod.rs line 191): the loop bound is
total_bytes / chunk_size + 1 with flooring division. -/
def downloadChunkFileTaskCount (cf : ChunkFile) : Nat :=
  cf.total_bytes / cf.chunk_size + 1

/-- The request building part of download_chunk_file
(subfile_client/mod.rs lines 186 to 229): for every loop index build a
DownloadRangeRequest, stopping at the first failure exactly as the
source returns early on error and as a Rust panic aborts the loop. -/
def buildRangeRequests (d : SubfileDownloader) (meta : ChunkFileMeta)
    (queryEndpoints : List (String × String)) (picks : Nat → Nat) :
    Except RangeRequestError (List DownloadRangeRequest) :=
  (List.range (downloadChunkFileTaskCount meta.chunk_file)).mapM
    (fun i => downloadRangeRequest d meta queryEndpoints i (picks i))

/-- The headers attached by request_chunk (subfile_client/mod.rs lines
449 to 456), in source order: file_hash, Content-Range and
Authorization. -/
def requestChunkHeaders (fileHash : String) (startPos endPos : Nat)
    (authToken : String) : List (String × String) :=
  [("file_hash", fileHash),
   ("Content-Range", "bytes=" ++ toString startPos ++ "-" ++ toString endPos),
   ("Authorization", authToken)]

/-- The panic raised by auth_token.expect in request_chunk. -/
inductive RequestChunkError where
  | panicNoAuthToken
deriving DecidableEq

/-- request_chunk (subfile_client/mod.rs lines 429 to 458), up to the
point where the request is handed to the http client: the Authorization
header is built by auth_token.expect, so a missing token panics before
any request exists.  On success the function yields the endpoint and the
full header list. -/
def requestChunk (queryEndpoint : String) (authToken : Option String)
    (fileHash : String) (startPos endPos : Nat) :
    Except RequestChunkError (String × List (String × String)) :=
  match authToken with
  | none => .error .panicNoAuthToken
  | some tok => .ok (queryEndpoint, requestChunkHeaders fileHash startPos endPos tok)

/-- Look a header up by name: first match wins, as in the http header
maps used by the source. -/
def lookupHeader (headers : List (String × String)) (name : String) : Option String :=
  (headers.find? (fun h => h.1 == name)).map (fun h => h.2)

/-- Subfile (server side): manifest hash, local directory and the chunk
files, with the fields the embedded server functions read. -/
structure Subfile where
  ipfs_hash : String
  local_path : List String
  chunk_files : List ChunkFile
deriving DecidableEq

/-- ServerState (subfile_server/mod.rs lines 27 to 33).  The release
version is kept as the plain version string. -/
structure ServerState where
  operator_public_key : String
  subfiles : List (String × Subfile)
  release : String
  free_query_auth_token : Option String
deriving DecidableEq

/-- The token mapping done by initialize_subfile_server_context
(subfile_server/mod.rs lines 91 to 93): a configured token is stored
with the Bearer prefix. -/
def serverAuthTokenConfig (free_query_auth_token : Option String) : Option String :=
  free_query_auth_token.map (fun token => "Bearer " ++ token)

/-- The free query condition of file_service (subfile_server/mod.rs
lines 254 to 257): no token configured, or the Authorization header is
present and equal to the stored token. -/
def freeQueryCheck (free_query_auth_token : Option String)
    (auth_token : Option String) : Bool :=
  free_query_auth_token.isNone ||
    (auth_token.isSome && free_query_auth_token.isSome &&
      auth_token == free_query_auth_token)

/-- The responses of file_service.  Serving is recorded with the
resolved path; range parsing happens in range.rs and is kept behind the
raw header value. -/
inductive FileServiceResponse where
  | unauthorized
  | subfileNotFound
  | missingFileNameHeader
  | serveFileRange (path : List String) (rangeHeader : String)
  | serveFile (path : List String)
deriving DecidableEq

/-- The path served by a response, if any. -/
def servedPath : FileServiceResponse → Option (List String)
  | .serveFileRange p _ => some p
  | .serveFile p => some p
  | _ => none

/-- Whether a response is the 401 response. -/
def isUnauthorized : FileServiceResponse → Bool
  | .unauthorized => true
  | _ => false

/-- file_service (subfile-exchange subfile_server/mod.rs lines 233 to
307; the subfile-cli version at subfile_server/mod.rs lines 183 to 259
has identical control flow for everything modelled here).  The id has
already been stripped of the route prefix.  The server reads the
file_name header and appends its value to the local directory of the
resolved subfile. -/
def fileService (st : ServerState) (id : String)
    (headers : List (String × String)) : FileServiceResponse :=
  if freeQueryCheck st.free_query_auth_token (lookupHeader headers "Authorization") = true then
    match List.lookup id st.subfiles with
    | none => .subfileNotFound
    | some sf =>
      match lookupHeader headers "file_name" with
      | some v =>
        match lookupHeader headers "Content-Range" with
        | some r => .serveFileRange (sf.local_path ++ [v]) r
        | none => .serveFile (sf.local_path ++ [v])
      | none => .missingFileNameHeader
  else .unauthorized

/-! Helper lemmas about the server audit path. -/

theorem freeQueryCheck_some_iff (t : String) (a : Option String) :
    freeQueryCheck (some t) a = true ↔ a = some t := by
  cases a with
  | none => simp [freeQueryCheck]
  | some x => simp [freeQueryCheck]

theorem freeQueryCheck_none (a : Option String) : freeQueryCheck none a = true := by
  rfl

theorem fileService_free_not_unauthorized (st : ServerState) (id : String)
    (headers : List (String × String))
    (h : freeQueryCheck st.free_query_auth_token (lookupHeader headers "Authorization") = true) :
    isUnauthorized (fileService st id headers) = false := by
  rw [fileService, if_pos h]
  cases List.lookup id st.subfiles with
  | none => rfl
  | some sf =>
    cases lookupHeader headers "file_name" with
    | none => rfl
    | some v =>
      cases lookupHeader headers "Content-Range" with
      | none => rfl
      | some r => rfl

theorem fileService_not_free_unauthorized (st : ServerState) (id : String)
    (headers : List (String × String))
    (h : freeQueryCheck st.free_query_auth_token (lookupHeader headers "Authorization") = false) :
    fileService st id headers = .unauthorized := by
  rw [fileService, if_neg]
  simp [h]

/-! Claim C1: chunk task count and index bounds in download_chunk_file. -/

/-- A chunk file whose length is an exact multiple of the chunk size:
8 bytes in chunks of 4, so the invariant length of chunk_hashes equals
ceil(8 / 4) = 2 holds. -/
def exactMultipleChunkFile : ChunkFile :=
  { file_name := "exact.bin"
    total_bytes := 8
    chunk_size := 4
    chunk_hashes := ["hash0", "hash1"] }

/-- The meta info of the exact multiple chunk file. -/
def exactMultipleMeta : ChunkFileMeta :=
  { meta_info := { name := "exact.bin", hash := "QmChunkFile" }
    chunk_file := exactMultipleChunkFile }

/-- A downloader configured with one endpoint and an auth token. -/
def exampleDownloader : SubfileDownloader :=
  SubfileDownloader.new
    { ipfs_hash := "QmSubfile"
      gateway_url := none
      indexer_endpoints := ["http://host:5678"]
      output_dir := "/tmp/out"
      free_query_auth_token := some "Bearer free-token"
      max_retry := 10 }

/-- C1: the claim states that download_chunk_file spawns exactly
ceil(total_bytes / chunk_size) per chunk tasks with every read of
chunk_hashes[i] in bounds, in particular for files whose length is an
exact multiple of chunk_size.  The code instead loops over
total_bytes / chunk_size + 1 indices: for the 8 byte file with chunk
size 4 the invariant holds with two chunk hashes, ceil gives 2, but the
loop runs 3 iterations and the third indexes chunk_hashes[2], which is
out of bounds and panics, so the request building fails instead of
producing 2 requests. -/
theorem download_chunk_file_exact_multiple_out_of_bounds :
    exactMultipleChunkFile.chunk_hashes.length =
      (exactMultipleChunkFile.total_bytes + exactMultipleChunkFile.chunk_size - 1) /
        exactMultipleChunkFile.chunk_size ∧
    (exactMultipleChunkFile.total_bytes + exactMultipleChunkFile.chunk_size - 1) /
        exactMultipleChunkFile.chunk_size = 2 ∧
    downloadChunkFileTaskCount exactMultipleChunkFile = 3 ∧
    buildRangeRequests exampleDownloader exactMultipleMeta
      [("operator-key", "http://host:5678")] (fun _ => 0) =
      .error .panicIndexOutOfBounds := by
  refine ⟨rfl, rfl, rfl, rfl⟩

/-! Claim C2: the downloader sends a file_hash header and never a
file_name header, while the server reads the file_name header and
appends its value to the local directory. -/

/-- C2: in every chunk range request the headers built by request_chunk
carry the chunk file content hash under the name file_hash and contain
no file_name header; every request issued by request_chunk uses exactly
those headers, and the file_hash value of every built range request is
the chunk file content hash from the meta info.  The server reads the
request header named file_name and serves the path obtained by
appending its value to the local directory of the resolved subfile
(unless the request is rejected as unauthorized). -/
theorem downloader_file_hash_server_file_name
    (fileHash : String) (s e : Nat) (tok : String) :
    (lookupHeader (requestChunkHeaders fileHash s e tok) "file_hash" = some fileHash ∧
      lookupHeader (requestChunkHeaders fileHash s e tok) "file_name" = none) ∧
    (∀ qe r, requestChunk qe (some tok) fileHash s e = .ok r →
      r.2 = requestChunkHeaders fileHash s e tok) ∧
    (∀ d meta qeps i pick req, downloadRangeRequest d meta qeps i pick = .ok req →
      req.file_hash = meta.meta_info.hash) ∧
    (∀ st id headers sf v, List.lookup id st.subfiles = some sf →
      lookupHeader headers "file_name" = some v →
      fileService st id headers = .unauthorized ∨
        servedPath (fileService st id headers) = some (sf.local_path ++ [v])) := by
  refine ⟨⟨?_, ?_⟩, ?_, ?_, ?_⟩
  · simp [lookupHeader, requestChunkHeaders, List.find?]
  · simp [lookupHeader, requestChunkHeaders, List.find?]
  · intro qe r h
    simp only [requestChunk] at h
    cases h
    rfl
  · intro d meta qeps i pick req h
    rw [downloadRangeRequest] at h
    cases hq : qeps[pick % qeps.length]? with
    | none => rw [hq] at h; cases h
    | some pair =>
      rw [hq] at h
      cases hh : meta.chunk_file.chunk_hashes[i]? with
      | none => simp [hh] at h
      | some ch =>
        simp only [hh] at h
        cases h
        rfl
  · intro st id headers sf v hlk hfn
    cases hfq : freeQueryCheck st.free_query_auth_token (lookupHeader headers "Authorization") with
    | false => exact Or.inl (fileService_not_free_unauthorized st id headers hfq)
    | true =>
      refine Or.inr ?_
      rw [fileService, if_pos hfq, hlk, hfn]
      cases lookupHeader headers "Content-Range" with
      | none => rfl
      | some r => rfl

/-! Claim C6: the free query authorization rule of file_service. -/

/-- C6: when the server is configured with a free query auth token, a
request to the subfiles route is not answered with 401 exactly when its
Authorization header is present and equals the string Bearer followed by
a space and the token; when no token is configured the authorization
check passes for every request, whatever its Authorization header. -/
theorem file_service_free_query_auth (pk rel : String)
    (subfiles : List (String × Subfile)) (token : String) (id : String)
    (headers : List (String × String)) :
    (isUnauthorized (fileService
        { operator_public_key := pk, subfiles := subfiles, release := rel,
          free_query_auth_token := serverAuthTokenConfig (some token) } id headers) = false
      ↔ lookupHeader headers "Authorization" = some ("Bearer " ++ token)) ∧
    isUnauthorized (fileService
        { operator_public_key := pk, subfiles := subfiles, release := rel,
          free_query_auth_token := serverAuthTokenConfig none } id headers) = false := by
  constructor
  · constructor
    · intro hok
      cases hfq : freeQueryCheck (serverAuthTokenConfig (some token))
          (lookupHeader headers "Authorization") with
      | true =>
        have := (freeQueryCheck_some_iff ("Bearer " ++ token)
          (lookupHeader headers "Authorization")).mp hfq
        exact this
      | false =>
        have hserv := fileService_not_free_unauthorized
          { operator_public_key := pk, subfiles := subfiles, release := rel,
            free_query_auth_token := serverAuthTokenConfig (some token) } id headers hfq
        rw [hserv] at hok
        cases hok
    · intro hauth
      apply fileService_free_not_unauthorized
      exact (freeQueryCheck_some_iff ("Bearer " ++ token)
        (lookupHeader headers "Authorization")).mpr hauth
  · apply fileService_free_not_unauthorized
    exact freeQueryCheck_none (lookupHeader headers "Authorization")

/-! Claim C10: request_chunk unwraps the optional auth token before
sending, so a downloader built without a token panics in every per
chunk task, while the server treats the Authorization header as
optional. -/

/-- C10: for a downloader constructed from arguments without a free
query auth token, every range request it builds carries auth_token none,
request_chunk with auth_token none panics via expect before any request
is produced, and the server side free query check accepts every request
when the server itself has no token configured. -/
theorem request_chunk_panics_without_auth_token (args : DownloaderArgs)
    (h : args.free_query_auth_token = none) :
    (∀ meta qeps i pick req,
      downloadRangeRequest (SubfileDownloader.new args) meta qeps i pick = .ok req →
      req.auth_token = none) ∧
    (∀ qe fh s e, requestChunk qe none fh s e = .error .panicNoAuthToken) ∧
    (∀ a, freeQueryCheck none a = true) := by
  refine ⟨?_, ?_, ?_⟩
  · intro meta qeps i pick req hreq
    rw [downloadRangeRequest] at hreq
    cases hq : qeps[pick % qeps.length]? with
    | none => rw [hq] at hreq; cases hreq
    | some pair =>
      rw [hq] at hreq
      cases hh : meta.chunk_file.chunk_hashes[i]? with
      | none => simp [hh] at hreq
      | some ch =>
        simp only [hh] at hreq
        cases hreq
        simp [SubfileDownloader.new, h]
  · intro qe fh s e
    rfl
  · intro a
    rfl

/-- Arguments without a free query auth token, used to instantiate the
claim about the unconditional token unwrap. -/
def tokenlessArgs : DownloaderArgs :=
  { ipfs_hash := "QmSubfile"
    gateway_url := none
    indexer_endpoints := ["http://host:5678"]
    output_dir := "/tmp/out"
    free_query_auth_token := none
    max_retry := 3 }

/-- Witness for the claim about the unconditional token unwrap, at the
concrete tokenless downloader arguments. -/
theorem request_chunk_panics_without_auth_token_witness :
    tokenlessArgs.free_query_auth_token = none ∧
    ((∀ meta qeps i pick req,
      downloadRangeRequest (SubfileDownloader.new tokenlessArgs) meta qeps i pick = .ok req →
      req.auth_token = none) ∧
    (∀ qe fh s e, requestChunk qe none fh s e = .error .panicNoAuthToken) ∧
    (∀ a, freeQueryCheck none a = true)) :=
  ⟨rfl, request_chunk_panics_without_auth_token tokenlessArgs rfl⟩

/-! Claims C3 and C4: the per chunk retry loop
download_chunk_and_write_to_file (subfile_client/mod.rs lines 387 to
427). -/

/-- Events of one run of the per chunk task: numbered request attempts
and the sleeps between attempts, with the slept seconds recorded. -/
inductive DlEvent where
  | attempt (k : Nat)
  | sleepSeconds (n : Nat)
deriving DecidableEq

/-- The errors download_chunk_and_write_to_file can return: the
exhausted retries error built at the end of the loop, and an io error
of the seek or write_all call propagated by the question mark
operator. -/
inductive DlError where
  | exhaustedRetries
  | ioError (msg : String)
deriving DecidableEq

/-- The observable outcome of download_chunk_and_write_to_file: the
final value of the attempts counter, the ordered event trace, the
complete chunk writes performed on the shared output file (offset
paired with the written bytes) and the returned result. -/
structure DlResult where
  attemptsMade : Nat
  events : List DlEvent
  writes : List (Nat × Bytes)
  result : Except DlError Unit

/-- The retry loop of download_chunk_and_write_to_file.  The outcome of
request_chunk at attempt number k is supplied by the environment
function outcomes (an ok body or a transport or status error); verify
is the opaque verify_chunk digest check from file_hasher.rs; the
combined outcome of the fallible file_lock.seek and file_lock.write_all
calls at attempt k is supplied by the environment function writeResult.
A body that passes verification is written at the chunk start offset
under the file mutex: when seek and write_all succeed the complete
write is recorded and the loop returns Ok at once, and when either
fails its io error is returned at once through the question mark
operator, with no retry (a failed write leaves no complete chunk write;
the model tracks writes at the granularity of whole chunks).  Otherwise
the attempts counter is incremented, the loop returns the exhausted
retries error as soon as the counter reaches max_retry, and sleeps one
second before the next attempt.  The fuel argument only bounds the
recursion: the loop is entered with fuel equal to max_retry and the
guard maxRetry at most attempts + 1 always stops the loop before fuel
runs out, so the fuel zero fallback (which repeats the exhausted
retries record) is unreachable from the entry point. -/
def dcwLoop (verify : Bytes → String → Bool) (chunkHash : String) (startPos : Nat)
    (maxRetry : Nat) (outcomes : Nat → Except String Bytes)
    (writeResult : Nat → Except String Unit) :
    Nat → Nat → DlResult
  | fuel, attempts =>
    match outcomes attempts with
    | .ok data =>
      if verify data chunkHash = true then
        match writeResult attempts with
        | .error e =>
          { attemptsMade := attempts + 1
            events := [.attempt attempts]
            writes := []
            result := .error (.ioError e) }
        | .ok _ =>
          { attemptsMade := attempts + 1
            events := [.attempt attempts]
            writes := [(startPos, data)]
            result := .ok () }
      else
        if maxRetry ≤ attempts + 1 then
          { attemptsMade := attempts + 1
            events := [.attempt attempts]
            writes := []
            result := .error .exhaustedRetries }
        else
          match fuel with
          | 0 =>
            { attemptsMade := attempts + 1
              events := [.attempt attempts]
              writes := []
              result := .error .exhaustedRetries }
          | fuel' + 1 =>
            let r := dcwLoop verify chunkHash startPos maxRetry outcomes writeResult fuel'
              (attempts + 1)
            { attemptsMade := r.attemptsMade
              events := .attempt attempts :: .sleepSeconds 1 :: r.events
              writes := r.writes
              result := r.result }
    | .error _ =>
      if maxRetry ≤ attempts + 1 then
        { attemptsMade := attempts + 1
          events := [.attempt attempts]
          writes := []
          result := .error .exhaustedRetries }
      else
        match fuel with
        | 0 =>
          { attemptsMade := attempts + 1
            events := [.attempt attempts]
            writes := []
            result := .error .exhaustedRetries }
        | fuel' + 1 =>
          let r := dcwLoop verify chunkHash startPos maxRetry outcomes writeResult fuel'
            (attempts + 1)
          { attemptsMade := r.attemptsMade
            events := .attempt attempts :: .sleepSeconds 1 :: r.events
            writes := r.writes
            result := r.result }

/-- download_chunk_and_write_to_file: run the retry loop from attempt
zero with enough fuel. -/
def downloadChunkAndWriteToFile (verify : Bytes → String → Bool) (chunkHash : String)
    (startPos : Nat) (maxRetry : Nat) (outcomes : Nat → Except String Bytes)
    (writeResult : Nat → Except String Unit) : DlResult :=
  dcwLoop verify chunkHash startPos maxRetry outcomes writeResult maxRetry 0

/-- Whether the response of attempt number k is a body that passes
verification. -/
def attemptVerifies (verify : Bytes → String → Bool) (chunkHash : String)
    (outcomes : Nat → Except String Bytes) (k : Nat) : Bool :=
  match outcomes k with
  | .ok d => verify d chunkHash
  | .error _ => false

/-- Whether attempt number k succeeds in the sense of the claim: its
body passes verification and its seek and write calls succeed. -/
def attemptSucceeds (verify : Bytes → String → Bool) (chunkHash : String)
    (outcomes : Nat → Except String Bytes) (writeResult : Nat → Except String Unit)
    (k : Nat) : Bool :=
  attemptVerifies verify chunkHash outcomes k &&
    (match writeResult k with
     | .ok _ => true
     | .error _ => false)

/-- The event trace of n attempts starting at attempt number a, with a
one second sleep between consecutive attempts. -/
def retryTrace (a : Nat) : Nat → List DlEvent
  | 0 => []
  | 1 => [.attempt a]
  | n + 2 => .attempt a :: .sleepSeconds 1 :: retryTrace (a + 1) (n + 1)

theorem retryTrace_one (a : Nat) : retryTrace a 1 = [DlEvent.attempt a] := rfl

theorem retryTrace_two_plus (a n : Nat) :
    retryTrace a (n + 2) =
      DlEvent.attempt a :: DlEvent.sleepSeconds 1 :: retryTrace (a + 1) (n + 1) := rfl

theorem dcwLoop_attempts_lower (verify : Bytes → String → Bool) (chunkHash : String)
    (startPos maxRetry : Nat) (outcomes : Nat → Except String Bytes)
    (writeResult : Nat → Except String Unit) :
    ∀ fuel attempts,
      attempts < (dcwLoop verify chunkHash startPos maxRetry outcomes writeResult fuel
        attempts).attemptsMade := by
  intro fuel
  induction fuel with
  | zero =>
    intro attempts
    rw [dcwLoop]
    split
    · split
      · split
        · exact Nat.lt_succ_self attempts
        · exact Nat.lt_succ_self attempts
      · split
        · exact Nat.lt_succ_self attempts
        · exact Nat.lt_succ_self attempts
    · split
      · exact Nat.lt_succ_self attempts
      · exact Nat.lt_succ_self attempts
  | succ fuel ih =>
    intro attempts
    rw [dcwLoop]
    split
    · split
      · split
        · exact Nat.lt_succ_self attempts
        · exact Nat.lt_succ_self attempts
      · split
        · exact Nat.lt_succ_self attempts
        · exact Nat.lt_trans (Nat.lt_succ_self attempts) (ih (attempts + 1))
    · split
      · exact Nat.lt_succ_self attempts
      · exact Nat.lt_trans (Nat.lt_succ_self attempts) (ih (attempts + 1))

theorem dcwLoop_attempts_upper (verify : Bytes → String → Bool) (chunkHash : String)
    (startPos maxRetry : Nat) (outcomes : Nat → Except String Bytes)
    (writeResult : Nat → Except String Unit) :
    ∀ fuel attempts, attempts < maxRetry →
      (dcwLoop verify chunkHash startPos maxRetry outcomes writeResult fuel
        attempts).attemptsMade ≤ maxRetry := by
  intro fuel
  induction fuel with
  | zero =>
    intro attempts ha
    rw [dcwLoop]
    split
    · split
      · split
        · exact Nat.succ_le_of_lt ha
        · exact Nat.succ_le_of_lt ha
      · split
        · exact Nat.succ_le_of_lt ha
        · exact Nat.succ_le_of_lt ha
    · split
      · exact Nat.succ_le_of_lt ha
      · exact Nat.succ_le_of_lt ha
  | succ fuel ih =>
    intro attempts ha
    rw [dcwLoop]
    split
    · split
      · split
        · exact Nat.succ_le_of_lt ha
        · exact Nat.succ_le_of_lt ha
      · split
        · exact Nat.succ_le_of_lt ha
        · next hg => exact ih (attempts + 1) (by omega)
    · split
      · exact Nat.succ_le_of_lt ha
      · next hg => exact ih (attempts + 1) (by omega)

theorem dcwLoop_writes (verify : Bytes → String → Bool) (chunkHash : String)
    (startPos maxRetry : Nat) (outcomes : Nat → Except String Bytes)
    (writeResult : Nat → Except String Unit) :
    ∀ fuel attempts w,
      w ∈ (dcwLoop verify chunkHash startPos maxRetry outcomes writeResult fuel
        attempts).writes →
      w.1 = startPos ∧ verify w.2 chunkHash = true ∧ ∃ k, outcomes k = .ok w.2 := by
  intro fuel
  induction fuel with
  | zero =>
    intro attempts w hw
    rw [dcwLoop] at hw
    split at hw
    · next data heq =>
      split at hw
      · next hv =>
        split at hw
        · exact absurd hw (List.not_mem_nil w)
        · have hw2 : w ∈ [(startPos, data)] := hw
          rcases List.mem_singleton.mp hw2 with rfl
          exact ⟨rfl, hv, ⟨attempts, heq⟩⟩
      · split at hw
        · exact absurd hw (List.not_mem_nil w)
        · exact absurd hw (List.not_mem_nil w)
    · split at hw
      · exact absurd hw (List.not_mem_nil w)
      · exact absurd hw (List.not_mem_nil w)
  | succ fuel ih =>
    intro attempts w hw
    rw [dcwLoop] at hw
    split at hw
    · next data heq =>
      split at hw
      · next hv =>
        split at hw
        · exact absurd hw (List.not_mem_nil w)
        · have hw2 : w ∈ [(startPos, data)] := hw
          rcases List.mem_singleton.mp hw2 with rfl
          exact ⟨rfl, hv, ⟨attempts, heq⟩⟩
      · split at hw
        · exact absurd hw (List.not_mem_nil w)
        · exact ih (attempts + 1) w hw
    · split at hw
      · exact absurd hw (List.not_mem_nil w)
      · exact ih (attempts + 1) w hw

theorem dcwLoop_events (verify : Bytes → String → Bool) (chunkHash : String)
    (startPos maxRetry : Nat) (outcomes : Nat → Except String Bytes)
    (writeResult : Nat → Except String Unit) :
    ∀ fuel attempts,
      (dcwLoop verify chunkHash startPos maxRetry outcomes writeResult fuel attempts).events =
        retryTrace attempts
          ((dcwLoop verify chunkHash startPos maxRetry outcomes writeResult fuel
            attempts).attemptsMade - attempts) := by
  intro fuel
  induction fuel with
  | zero =>
    intro attempts
    rw [dcwLoop]
    split
    · split
      · split
        · show [DlEvent.attempt attempts] = retryTrace attempts (attempts + 1 - attempts)
          rw [Nat.add_sub_cancel_left, retryTrace_one]
        · show [DlEvent.attempt attempts] = retryTrace attempts (attempts + 1 - attempts)
          rw [Nat.add_sub_cancel_left, retryTrace_one]
      · split
        · show [DlEvent.attempt attempts] = retryTrace attempts (attempts + 1 - attempts)
          rw [Nat.add_sub_cancel_left, retryTrace_one]
        · show [DlEvent.attempt attempts] = retryTrace attempts (attempts + 1 - attempts)
          rw [Nat.add_sub_cancel_left, retryTrace_one]
    · split
      · show [DlEvent.attempt attempts] = retryTrace attempts (attempts + 1 - attempts)
        rw [Nat.add_sub_cancel_left, retryTrace_one]
      · show [DlEvent.attempt attempts] = retryTrace attempts (attempts + 1 - attempts)
        rw [Nat.add_sub_cancel_left, retryTrace_one]
  | succ fuel ih =>
    intro attempts
    rw [dcwLoop]
    split
    · split
      · split
        · show [DlEvent.attempt attempts] = retryTrace attempts (attempts + 1 - attempts)
          rw [Nat.add_sub_cancel_left, retryTrace_one]
        · show [DlEvent.attempt attempts] = retryTrace attempts (attempts + 1 - attempts)
          rw [Nat.add_sub_cancel_left, retryTrace_one]
      · split
        · show [DlEvent.attempt attempts] = retryTrace attempts (attempts + 1 - attempts)
          rw [Nat.add_sub_cancel_left, retryTrace_one]
        · show DlEvent.attempt attempts :: DlEvent.sleepSeconds 1 ::
              (dcwLoop verify chunkHash startPos maxRetry outcomes writeResult fuel
                (attempts + 1)).events =
            retryTrace attempts
              ((dcwLoop verify chunkHash startPos maxRetry outcomes writeResult fuel
                  (attempts + 1)).attemptsMade - attempts)
          have hlow := dcwLoop_attempts_lower verify chunkHash startPos maxRetry outcomes
            writeResult fuel (attempts + 1)
          obtain ⟨n, hn⟩ : ∃ n, (dcwLoop verify chunkHash startPos maxRetry outcomes
              writeResult fuel (attempts + 1)).attemptsMade - attempts = n + 2 :=
            ⟨(dcwLoop verify chunkHash startPos maxRetry outcomes writeResult fuel
              (attempts + 1)).attemptsMade - attempts - 2, by omega⟩
          rw [hn, retryTrace_two_plus, ih (attempts + 1)]
          have h2 : (dcwLoop verify chunkHash startPos maxRetry outcomes writeResult fuel
              (attempts + 1)).attemptsMade - (attempts + 1) = n + 1 := by omega
          rw [h2]
    · split
      · show [DlEvent.attempt attempts] = retryTrace attempts (attempts + 1 - attempts)
        rw [Nat.add_sub_cancel_left, retryTrace_one]
      · show DlEvent.attempt attempts :: DlEvent.sleepSeconds 1 ::
            (dcwLoop verify chunkHash startPos maxRetry outcomes writeResult fuel
              (attempts + 1)).events =
          retryTrace attempts
            ((dcwLoop verify chunkHash startPos maxRetry outcomes writeResult fuel
                (attempts + 1)).attemptsMade - attempts)
        have hlow := dcwLoop_attempts_lower verify chunkHash startPos maxRetry outcomes
          writeResult fuel (attempts + 1)
        obtain ⟨n, hn⟩ : ∃ n, (dcwLoop verify chunkHash startPos maxRetry outcomes
            writeResult fuel (attempts + 1)).attemptsMade - attempts = n + 2 :=
          ⟨(dcwLoop verify chunkHash startPos maxRetry outcomes writeResult fuel
            (attempts + 1)).attemptsMade - attempts - 2, by omega⟩
        rw [hn, retryTrace_two_plus, ih (attempts + 1)]
        have h2 : (dcwLoop verify chunkHash startPos maxRetry outcomes writeResult fuel
            (attempts + 1)).attemptsMade - (attempts + 1) = n + 1 := by omega
        rw [h2]

theorem dcwLoop_first_verified (verify : Bytes → String → Bool) (chunkHash : String)
    (startPos maxRetry : Nat) (outcomes : Nat → Except String Bytes)
    (writeResult : Nat → Except String Unit) :
    ∀ fuel attempts k, maxRetry ≤ fuel + attempts → attempts < maxRetry →
      attempts ≤ k → k < maxRetry →
      attemptVerifies verify chunkHash outcomes k = true →
      (∀ j, attempts ≤ j → j < k → attemptVerifies verify chunkHash outcomes j = false) →
      (dcwLoop verify chunkHash startPos maxRetry outcomes writeResult fuel
          attempts).attemptsMade = k + 1 ∧
      (dcwLoop verify chunkHash startPos maxRetry outcomes writeResult fuel
          attempts).result =
        (match writeResult k with
          | .ok _ => .ok ()
          | .error e => .error (.ioError e)) := by
  intro fuel
  induction fuel with
  | zero =>
    intro attempts k hf ha _ _ _ _
    omega
  | succ fuel ih =>
    intro attempts k hf ha hak hk hkver hkmin
    rw [dcwLoop]
    split
    · next data heq =>
      by_cases hv : verify data chunkHash = true
      · rw [if_pos hv]
        have hva : attemptVerifies verify chunkHash outcomes attempts = true := by
          simp [attemptVerifies, heq, hv]
        have hke : k = attempts := by
          by_contra hne
          have hlt : attempts < k := by omega
          have hj := hkmin attempts (Nat.le_refl attempts) hlt
          rw [hva] at hj
          cases hj
        subst hke
        cases hw : writeResult k with
        | error e => exact ⟨rfl, rfl⟩
        | ok u => exact ⟨rfl, rfl⟩
      · rw [if_neg hv]
        have hva : attemptVerifies verify chunkHash outcomes attempts = false := by
          cases hb : verify data chunkHash with
          | true => exact absurd hb hv
          | false => simp [attemptVerifies, heq, hb]
        have hka : attempts < k := by
          rcases Nat.lt_or_ge attempts k with h | h
          · exact h
          · have hke : k = attempts := by omega
            subst hke
            rw [hva] at hkver
            cases hkver
        by_cases hg : maxRetry ≤ attempts + 1
        · exfalso
          omega
        · rw [if_neg hg]
          exact ih (attempts + 1) k (by omega) (by omega) hka hk hkver
            (fun j hj1 hj2 => hkmin j (by omega) hj2)
    · next err heq =>
      have hva : attemptVerifies verify chunkHash outcomes attempts = false := by
        simp [attemptVerifies, heq]
      have hka : attempts < k := by
        rcases Nat.lt_or_ge attempts k with h | h
        · exact h
        · have hke : k = attempts := by omega
          subst hke
          rw [hva] at hkver
          cases hkver
      by_cases hg : maxRetry ≤ attempts + 1
      · exfalso
        omega
      · rw [if_neg hg]
        exact ih (attempts + 1) k (by omega) (by omega) hka hk hkver
          (fun j hj1 hj2 => hkmin j (by omega) hj2)

theorem dcwLoop_no_verified (verify : Bytes → String → Bool) (chunkHash : String)
    (startPos maxRetry : Nat) (outcomes : Nat → Except String Bytes)
    (writeResult : Nat → Except String Unit) :
    ∀ fuel attempts, maxRetry ≤ fuel + attempts → attempts < maxRetry →
      (∀ k, attempts ≤ k → k < maxRetry →
        attemptVerifies verify chunkHash outcomes k = false) →
      (dcwLoop verify chunkHash startPos maxRetry outcomes writeResult fuel
          attempts).attemptsMade = maxRetry ∧
      (dcwLoop verify chunkHash startPos maxRetry outcomes writeResult fuel
          attempts).result = .error .exhaustedRetries := by
  intro fuel
  induction fuel with
  | zero =>
    intro attempts hf ha _
    omega
  | succ fuel ih =>
    intro attempts hf ha hall
    rw [dcwLoop]
    split
    · next data heq =>
      by_cases hv : verify data chunkHash = true
      · exfalso
        have hva : attemptVerifies verify chunkHash outcomes attempts = true := by
          simp [attemptVerifies, heq, hv]
        have hcon := hall attempts (Nat.le_refl attempts) ha
        rw [hva] at hcon
        cases hcon
      · rw [if_neg hv]
        by_cases hg : maxRetry ≤ attempts + 1
        · rw [if_pos hg]
          constructor
          · show attempts + 1 = maxRetry
            omega
          · rfl
        · rw [if_neg hg]
          exact ih (attempts + 1) (by omega) (by omega)
            (fun k h1 h2 => hall k (by omega) h2)
    · next err heq =>
      by_cases hg : maxRetry ≤ attempts + 1
      · rw [if_pos hg]
        constructor
        · show attempts + 1 = maxRetry
          omega
        · rfl
      · rw [if_neg hg]
        exact ih (attempts + 1) (by omega) (by omega)
          (fun k h1 h2 => hall k (by omega) h2)

theorem least_true_below (p : Nat → Bool) (n : Nat) :
    (∀ k, k < n → p k = false) ∨
    (∃ k, k < n ∧ p k = true ∧ ∀ j, j < k → p j = false) := by
  by_cases hex : ∃ k, k < n ∧ p k = true
  · right
    obtain ⟨w, hw1, hw2⟩ := hex
    have hexp : ∃ k, p k = true := ⟨w, hw2⟩
    refine ⟨Nat.find hexp, ?_, Nat.find_spec hexp, ?_⟩
    · exact Nat.lt_of_le_of_lt (Nat.find_min' hexp hw2) hw1
    · intro j hj
      cases hb : p j with
      | true => exact absurd hb (Nat.find_min hexp hj)
      | false => rfl
  · left
    intro k hk
    cases hb : p k with
    | true => exact absurd ⟨k, hk, hb⟩ hex
    | false => rfl

/-- C3: in every attempt of the per chunk task, bytes reach the output
file only for a response body of some attempt that passed verify_chunk,
and they are written at the chunk start offset; an attempt whose body
fails verification contributes no write. -/
theorem download_writes_only_verified (verify : Bytes → String → Bool) (chunkHash : String)
    (startPos maxRetry : Nat) (outcomes : Nat → Except String Bytes)
    (writeResult : Nat → Except String Unit) :
    ∀ w ∈ (downloadChunkAndWriteToFile verify chunkHash startPos maxRetry outcomes
        writeResult).writes,
      w.1 = startPos ∧ verify w.2 chunkHash = true ∧ ∃ k, outcomes k = .ok w.2 :=
  fun w hw =>
    dcwLoop_writes verify chunkHash startPos maxRetry outcomes writeResult maxRetry 0 w hw

/-- A digest check accepting exactly the body consisting of the single
byte 7, for the concrete run below. -/
def c3Verify : Bytes → String → Bool := fun b _ => b == [7]

/-- An environment whose every attempt returns the single byte 7. -/
def c3Outcomes : Nat → Except String Bytes := fun _ => .ok [7]

/-- A file environment whose every seek and write succeeds. -/
def c3Write : Nat → Except String Unit := fun _ => .ok ()

/-- Witness for the write only verified chunks claim at a concrete
run. -/
theorem download_writes_only_verified_witness :
    (5, [7]) ∈ (downloadChunkAndWriteToFile c3Verify "chunk-hash" 5 3 c3Outcomes
      c3Write).writes ∧
    ((5, ([7] : Bytes)).1 = 5 ∧ c3Verify (5, ([7] : Bytes)).2 "chunk-hash" = true ∧
      ∃ k, c3Outcomes k = .ok (5, ([7] : Bytes)).2) :=
  ⟨by decide,
   download_writes_only_verified c3Verify "chunk-hash" 5 3 c3Outcomes c3Write (5, [7])
     (by decide)⟩

/-- A digest check accepting exactly the body consisting of the single
byte 9, for the run refuting the original retry claim. -/
def c4xVerify : Bytes → String → Bool := fun b _ => b == [9]

/-- An environment whose every attempt returns the single byte 9. -/
def c4xOutcomes : Nat → Except String Bytes := fun _ => .ok [9]

/-- A file environment whose every seek or write fails with an io
error. -/
def c4xWrite : Nat → Except String Unit := fun _ => .error "disk full"

/-- Counterexample to C4 as stated: with max_retry 2, the first attempt
passes verification but its seek or write fails (mod.rs lines 409 to
410 propagate the io error with the question mark operator), so the
task returns the io error after one attempt.  No attempt succeeded (in
the sense of the claim: passed verification and wrote successfully),
yet the returned error is not the exhausted retries error, refuting
the claimed equivalence between the exhausted retries error and the
absence of a successful attempt. -/
theorem download_retry_io_error_counterexample :
    1 ≤ 2 ∧
    (downloadChunkAndWriteToFile c4xVerify "c4x" 5 2 c4xOutcomes c4xWrite).result =
      .error (.ioError "disk full") ∧
    (downloadChunkAndWriteToFile c4xVerify "c4x" 5 2 c4xOutcomes c4xWrite).attemptsMade = 1 ∧
    attemptSucceeds c4xVerify "c4x" c4xOutcomes c4xWrite 0 = false ∧
    attemptSucceeds c4xVerify "c4x" c4xOutcomes c4xWrite 1 = false ∧
    ¬ (downloadChunkAndWriteToFile c4xVerify "c4x" 5 2 c4xOutcomes c4xWrite).result =
      .error .exhaustedRetries := by
  refine ⟨by omega, rfl, rfl, rfl, rfl, ?_⟩
  intro h
  have h2 : (Except.error (DlError.ioError "disk full") : Except DlError Unit) =
      .error .exhaustedRetries := h
  injection h2 with h3
  cases h3

/-- C4 as amended: for max_retry at least one, the per chunk task
performs at most max_retry request attempts, traced with a fixed one
second sleep between consecutive attempts; it returns Ok exactly when
the first attempt whose body passes verification also seeks and writes
successfully, stopping right after that attempt; when the first
verified attempt fails at seek or write the task returns that io error
immediately; and it returns the exhausted retries error exactly when no
attempt within max_retry passed verification. -/
theorem download_retry_semantics (verify : Bytes → String → Bool) (chunkHash : String)
    (startPos maxRetry : Nat) (outcomes : Nat → Except String Bytes)
    (writeResult : Nat → Except String Unit) (hmr : 1 ≤ maxRetry) :
    (1 ≤ (downloadChunkAndWriteToFile verify chunkHash startPos maxRetry outcomes
        writeResult).attemptsMade ∧
      (downloadChunkAndWriteToFile verify chunkHash startPos maxRetry outcomes
        writeResult).attemptsMade ≤ maxRetry) ∧
    (downloadChunkAndWriteToFile verify chunkHash startPos maxRetry outcomes
        writeResult).events =
      retryTrace 0 (downloadChunkAndWriteToFile verify chunkHash startPos maxRetry outcomes
        writeResult).attemptsMade ∧
    ((downloadChunkAndWriteToFile verify chunkHash startPos maxRetry outcomes
        writeResult).result = .ok () ↔
      ∃ k, k < maxRetry ∧ attemptSucceeds verify chunkHash outcomes writeResult k = true ∧
        ∀ j, j < k → attemptVerifies verify chunkHash outcomes j = false) ∧
    ((downloadChunkAndWriteToFile verify chunkHash startPos maxRetry outcomes
        writeResult).result = .ok () →
      attemptSucceeds verify chunkHash outcomes writeResult
        ((downloadChunkAndWriteToFile verify chunkHash startPos maxRetry outcomes
          writeResult).attemptsMade - 1) = true ∧
      ∀ j, j < (downloadChunkAndWriteToFile verify chunkHash startPos maxRetry outcomes
          writeResult).attemptsMade - 1 →
        attemptVerifies verify chunkHash outcomes j = false) ∧
    (∀ k e, k < maxRetry → attemptVerifies verify chunkHash outcomes k = true →
      (∀ j, j < k → attemptVerifies verify chunkHash outcomes j = false) →
      writeResult k = .error e →
      (downloadChunkAndWriteToFile verify chunkHash startPos maxRetry outcomes
        writeResult).result = .error (.ioError e) ∧
      (downloadChunkAndWriteToFile verify chunkHash startPos maxRetry outcomes
        writeResult).attemptsMade = k + 1) ∧
    ((downloadChunkAndWriteToFile verify chunkHash startPos maxRetry outcomes
        writeResult).result = .error .exhaustedRetries ↔
      ∀ k, k < maxRetry → attemptVerifies verify chunkHash outcomes k = false) := by
  have hlow : 0 < (downloadChunkAndWriteToFile verify chunkHash startPos maxRetry outcomes
      writeResult).attemptsMade :=
    dcwLoop_attempts_lower verify chunkHash startPos maxRetry outcomes writeResult maxRetry 0
  have hupp : (downloadChunkAndWriteToFile verify chunkHash startPos maxRetry outcomes
      writeResult).attemptsMade ≤ maxRetry :=
    dcwLoop_attempts_upper verify chunkHash startPos maxRetry outcomes writeResult maxRetry 0
      hmr
  have hev : (downloadChunkAndWriteToFile verify chunkHash startPos maxRetry outcomes
      writeResult).events =
      retryTrace 0 ((downloadChunkAndWriteToFile verify chunkHash startPos maxRetry outcomes
        writeResult).attemptsMade - 0) :=
    dcwLoop_events verify chunkHash startPos maxRetry outcomes writeResult maxRetry 0
  rw [Nat.sub_zero] at hev
  have hM1 : ∀ k, k < maxRetry →
      attemptVerifies verify chunkHash outcomes k = true →
      (∀ j, j < k → attemptVerifies verify chunkHash outcomes j = false) →
      (downloadChunkAndWriteToFile verify chunkHash startPos maxRetry outcomes
        writeResult).attemptsMade = k + 1 ∧
      (downloadChunkAndWriteToFile verify chunkHash startPos maxRetry outcomes
        writeResult).result =
        (match writeResult k with
          | .ok _ => .ok ()
          | .error e => .error (.ioError e)) :=
    fun k hk hver hmin =>
      dcwLoop_first_verified verify chunkHash startPos maxRetry outcomes writeResult
        maxRetry 0 k (by omega) (by omega) (Nat.zero_le k) hk hver
        (fun j _ hj2 => hmin j hj2)
  have hM2 : (∀ k, k < maxRetry → attemptVerifies verify chunkHash outcomes k = false) →
      (downloadChunkAndWriteToFile verify chunkHash startPos maxRetry outcomes
        writeResult).attemptsMade = maxRetry ∧
      (downloadChunkAndWriteToFile verify chunkHash startPos maxRetry outcomes
        writeResult).result = .error .exhaustedRetries :=
    fun hall =>
      dcwLoop_no_verified verify chunkHash startPos maxRetry outcomes writeResult
        maxRetry 0 (by omega) (by omega) (fun k _ h2 => hall k h2)
  rcases least_true_below (attemptVerifies verify chunkHash outcomes) maxRetry with
    hnone | ⟨k0, hk0, hk0v, hk0min⟩
  · obtain ⟨hA, hR⟩ := hM2 hnone
    refine ⟨⟨hlow, hupp⟩, hev, ?_, ?_, ?_, ?_⟩
    · constructor
      · intro hres
        rw [hR] at hres
        cases hres
      · rintro ⟨k, hk, hsucc, hmin⟩
        simp only [attemptSucceeds, Bool.and_eq_true] at hsucc
        obtain ⟨hp1, hp2⟩ := hsucc
        rw [hnone k hk] at hp1
        cases hp1
    · intro hres
      rw [hR] at hres
      cases hres
    · intro k e hk hver hmin hw
      rw [hnone k hk] at hver
      cases hver
    · constructor
      · intro _
        exact hnone
      · intro _
        exact hR
  · obtain ⟨hA, hR⟩ := hM1 k0 hk0 hk0v hk0min
    have huniq : ∀ k, k < maxRetry → attemptVerifies verify chunkHash outcomes k = true →
        (∀ j, j < k → attemptVerifies verify chunkHash outcomes j = false) → k = k0 := by
      intro k hk hver hmin
      rcases Nat.lt_trichotomy k k0 with hlt | heq2 | hgt
      · have hcon := hk0min k hlt
        rw [hver] at hcon
        cases hcon
      · exact heq2
      · have hcon := hmin k0 hgt
        rw [hk0v] at hcon
        cases hcon
    cases hw : writeResult k0 with
    | ok u =>
      cases u
      have hRok : (downloadChunkAndWriteToFile verify chunkHash startPos maxRetry outcomes
          writeResult).result = .ok () := by
        rw [hR, hw]
      have hsucc0 : attemptSucceeds verify chunkHash outcomes writeResult k0 = true := by
        simp [attemptSucceeds, hk0v, hw]
      refine ⟨⟨hlow, hupp⟩, hev, ?_, ?_, ?_, ?_⟩
      · constructor
        · intro _
          exact ⟨k0, hk0, hsucc0, hk0min⟩
        · intro _
          exact hRok
      · intro _
        have hAm : (downloadChunkAndWriteToFile verify chunkHash startPos maxRetry outcomes
            writeResult).attemptsMade - 1 = k0 := by
          rw [hA]
          omega
        rw [hAm]
        exact ⟨hsucc0, hk0min⟩
      · intro k e hk hver hmin hw2
        have hke := huniq k hk hver hmin
        subst hke
        rw [hw] at hw2
        cases hw2
      · constructor
        · intro hres
          rw [hRok] at hres
          cases hres
        · intro hall
          have hcon := hall k0 hk0
          rw [hk0v] at hcon
          cases hcon
    | error e0 =>
      have hRio : (downloadChunkAndWriteToFile verify chunkHash startPos maxRetry outcomes
          writeResult).result = .error (.ioError e0) := by
        rw [hR, hw]
      refine ⟨⟨hlow, hupp⟩, hev, ?_, ?_, ?_, ?_⟩
      · constructor
        · intro hres
          rw [hRio] at hres
          cases hres
        · rintro ⟨k, hk, hsucc, hmin⟩
          simp only [attemptSucceeds, Bool.and_eq_true] at hsucc
          obtain ⟨hp1, hp2⟩ := hsucc
          have hke := huniq k hk hp1 hmin
          subst hke
          rw [hw] at hp2
          have hp3 : false = true := hp2
          cases hp3
      · intro hres
        rw [hRio] at hres
        cases hres
      · intro k e hk hver hmin hw2
        have hke := huniq k hk hver hmin
        subst hke
        rw [hw] at hw2
        injection hw2 with he
        subst he
        exact ⟨hRio, hA⟩
      · constructor
        · intro hres
          rw [hRio] at hres
          injection hres with hde
          cases hde
        · intro hall
          have hcon := hall k0 hk0
          rw [hk0v] at hcon
          cases hcon

/-- A digest check accepting exactly the body consisting of the single
byte 9, for the concrete retry run below. -/
def c4Verify : Bytes → String → Bool := fun b _ => b == [9]

/-- An environment whose first two attempts fail with a transport error
and whose third attempt returns the single byte 9. -/
def c4Outcomes : Nat → Except String Bytes :=
  fun k => if k < 2 then .error "transport" else .ok [9]

/-- A file environment whose every seek and write succeeds. -/
def c4Write : Nat → Except String Unit := fun _ => .ok ()

/-- Witness for the amended retry semantics claim at a concrete run
with max_retry three where the first verified attempt is the third and
its write succeeds. -/
theorem download_retry_semantics_witness :
    1 ≤ 3 ∧
    ((1 ≤ (downloadChunkAndWriteToFile c4Verify "c4" 5 3 c4Outcomes c4Write).attemptsMade ∧
      (downloadChunkAndWriteToFile c4Verify "c4" 5 3 c4Outcomes c4Write).attemptsMade ≤ 3) ∧
    (downloadChunkAndWriteToFile c4Verify "c4" 5 3 c4Outcomes c4Write).events =
      retryTrace 0 (downloadChunkAndWriteToFile c4Verify "c4" 5 3 c4Outcomes
        c4Write).attemptsMade ∧
    ((downloadChunkAndWriteToFile c4Verify "c4" 5 3 c4Outcomes c4Write).result = .ok () ↔
      ∃ k, k < 3 ∧ attemptSucceeds c4Verify "c4" c4Outcomes c4Write k = true ∧
        ∀ j, j < k → attemptVerifies c4Verify "c4" c4Outcomes j = false) ∧
    ((downloadChunkAndWriteToFile c4Verify "c4" 5 3 c4Outcomes c4Write).result = .ok () →
      attemptSucceeds c4Verify "c4" c4Outcomes c4Write
        ((downloadChunkAndWriteToFile c4Verify "c4" 5 3 c4Outcomes
          c4Write).attemptsMade - 1) = true ∧
      ∀ j, j < (downloadChunkAndWriteToFile c4Verify "c4" 5 3 c4Outcomes
          c4Write).attemptsMade - 1 →
        attemptVerifies c4Verify "c4" c4Outcomes j = false) ∧
    (∀ k e, k < 3 → attemptVerifies c4Verify "c4" c4Outcomes k = true →
      (∀ j, j < k → attemptVerifies c4Verify "c4" c4Outcomes j = false) →
      c4Write k = .error e →
      (downloadChunkAndWriteToFile c4Verify "c4" 5 3 c4Outcomes c4Write).result =
        .error (.ioError e) ∧
      (downloadChunkAndWriteToFile c4Verify "c4" 5 3 c4Outcomes c4Write).attemptsMade =
        k + 1) ∧
    ((downloadChunkAndWriteToFile c4Verify "c4" 5 3 c4Outcomes c4Write).result =
        .error .exhaustedRetries ↔
      ∀ k, k < 3 → attemptVerifies c4Verify "c4" c4Outcomes k = false)) :=
  ⟨by omega, download_retry_semantics c4Verify "c4" 5 3 c4Outcomes c4Write (by omega)⟩

/-! Claim C5: the availability prober check_availability and
check_endpoint_availability (subfile_client/mod.rs lines 66 to 100 and
265 to 327). -/

/-- Operator info served on the operator route (subfile_server/util). -/
structure Operator where
  public_key : String
deriving DecidableEq

/-- Parse and status outcome of the status request of one endpoint:
the http success flag and the result of parsing the body as a string
array (none when parsing fails). -/
structure StatusResponse where
  success : Bool
  files : Option (List String)
deriving DecidableEq

/-- Parse and status outcome of the operator request of one endpoint. -/
structure OperatorResponse where
  success : Bool
  operator : Option Operator
deriving DecidableEq

/-- The observable behavior of one endpoint during a probe; none in a
component is a transport failure of that request. -/
structure EndpointBehavior where
  statusResp : Option StatusResponse
  operatorResp : Option OperatorResponse
deriving DecidableEq

/-- check_endpoint_availability: request the status route, require http
success and a parsed string array containing the subfile hash, then
request the operator route, require http success and a parsed operator,
and return the operator public key paired with the url.  Every failing
branch calls add_to_indexer_blocklist, recorded in the boolean
component of the returned pair. -/
def checkEndpointAvailability (ipfsHash : String) (url : String) (b : EndpointBehavior) :
    Except String (String × String) × Bool :=
  match b.statusResp with
  | none => (.error "Status request failed.", true)
  | some sr =>
    if sr.success = false then (.error "Status request failed.", true)
    else
      match sr.files with
      | none => (.error "Status response parse error.", true)
      | some files =>
        if files.contains ipfsHash = false then
          (.error "IPFS hash not found in files served.", true)
        else
          match b.operatorResp with
          | none => (.error "Operator request failed.", true)
          | some opr =>
            if opr.success = false then (.error "Operator request failed.", true)
            else
              match opr.operator with
              | none => (.error "Operator response parse error.", true)
              | some op => (.ok (op.public_key, url), false)

/-- The outcome of one check_availability call: the successful operator
and url pairs, the blocklist afterwards, and the urls that were
probed. -/
structure AvailabilityResult where
  endpoints : List (String × String)
  blocklist : List String
  probed : List String

/-- check_availability: skip every endpoint already in the blocklist,
probe each remaining endpoint, collect the successful results, and
extend the blocklist with the urls whose probe failed. -/
def checkAvailability (ipfsHash : String) (blocklist : List String)
    (endpoints : List (String × EndpointBehavior)) : AvailabilityResult :=
  let filtered := endpoints.filter (fun q => !(blocklist.contains q.1))
  { endpoints := filtered.filterMap
      (fun q => (checkEndpointAvailability ipfsHash q.1 q.2).1.toOption)
    blocklist := blocklist ++
      (filtered.filter (fun q => (checkEndpointAvailability ipfsHash q.1 q.2).2)).map
        (fun q => q.1)
    probed := filtered.map (fun q => q.1) }

/-- Written from the words of the claim, to compare with the embedded
prober: an endpoint passes all checks when its status request succeeds
with http success and a body parsing to a string array containing the
manifest hash, and its operator request succeeds with http success and
a body parsing to an Operator. -/
def specEndpointPasses (ipfsHash : String) (b : EndpointBehavior) : Bool :=
  match b.statusResp with
  | none => false
  | some sr =>
    sr.success &&
      (match sr.files with
       | none => false
       | some files => files.contains ipfsHash) &&
      (match b.operatorResp with
       | none => false
       | some opr => opr.success && opr.operator.isSome)

/-- The public key of the parsed operator of an endpoint behavior, with
an empty default for endpoints without one. -/
def specOperatorKey (b : EndpointBehavior) : String :=
  match b.operatorResp with
  | none => ""
  | some opr =>
    match opr.operator with
    | none => ""
    | some op => op.public_key

theorem checkEndpointAvailability_characterization (ipfsHash url : String)
    (b : EndpointBehavior) :
    (checkEndpointAvailability ipfsHash url b).1.toOption =
      (if specEndpointPasses ipfsHash b = true then some (specOperatorKey b, url) else none) ∧
    (checkEndpointAvailability ipfsHash url b).2 = !(specEndpointPasses ipfsHash b) := by
  rcases b with ⟨st, opr⟩
  cases st with
  | none => simp [checkEndpointAvailability, specEndpointPasses, Except.toOption]
  | some sr =>
    rcases sr with ⟨ss, sf⟩
    cases ss with
    | false => simp [checkEndpointAvailability, specEndpointPasses, Except.toOption]
    | true =>
      cases sf with
      | none => simp [checkEndpointAvailability, specEndpointPasses, Except.toOption]
      | some files =>
        by_cases hc : ipfsHash ∈ files
        · cases opr with
          | none => simp [checkEndpointAvailability, specEndpointPasses, Except.toOption, hc]
          | some o =>
            rcases o with ⟨os, oo⟩
            cases os with
            | false =>
              simp [checkEndpointAvailability, specEndpointPasses, Except.toOption, hc]
            | true =>
              cases oo with
              | none =>
                simp [checkEndpointAvailability, specEndpointPasses, Except.toOption, hc]
              | some op =>
                simp [checkEndpointAvailability, specEndpointPasses, specOperatorKey,
                  Except.toOption, hc]
        · simp [checkEndpointAvailability, specEndpointPasses, Except.toOption, hc]

theorem checkAvailability_filterMap (ipfsHash : String) :
    ∀ l : List (String × EndpointBehavior),
      l.filterMap (fun q => (checkEndpointAvailability ipfsHash q.1 q.2).1.toOption) =
        (l.filter (fun q => specEndpointPasses ipfsHash q.2)).map
          (fun q => (specOperatorKey q.2, q.1)) := by
  intro l
  induction l with
  | nil => rfl
  | cons q rest ih =>
    rcases q with ⟨u, b⟩
    rw [List.filterMap_cons, List.filter_cons]
    obtain ⟨h1, h2⟩ := checkEndpointAvailability_characterization ipfsHash u b
    cases hp : specEndpointPasses ipfsHash b with
    | true =>
      rw [h1]
      simp [hp, ih]
    | false =>
      rw [h1]
      simp [hp, ih]

/-- C5: only endpoints outside the blocklist are probed; the prober
returns exactly the operator public key and url pairs of the non
blocklisted endpoints passing every check; and every non blocklisted
endpoint failing any check (status transport failure, non success
status, unparseable body, manifest hash missing from the array,
operator transport failure, non success status or unparseable operator)
is in the blocklist after the probe. -/
theorem check_availability_spec (ipfsHash : String) (blocklist : List String)
    (endpoints : List (String × EndpointBehavior)) :
    (checkAvailability ipfsHash blocklist endpoints).probed =
      (endpoints.filter (fun q => !(blocklist.contains q.1))).map (fun q => q.1) ∧
    (checkAvailability ipfsHash blocklist endpoints).endpoints =
      ((endpoints.filter (fun q => !(blocklist.contains q.1))).filter
        (fun q => specEndpointPasses ipfsHash q.2)).map
          (fun q => (specOperatorKey q.2, q.1)) ∧
    ∀ u b, (u, b) ∈ endpoints → u ∉ blocklist →
      specEndpointPasses ipfsHash b = false →
      u ∈ (checkAvailability ipfsHash blocklist endpoints).blocklist := by
  refine ⟨rfl, ?_, ?_⟩
  · show (endpoints.filter (fun q => !(blocklist.contains q.1))).filterMap
        (fun q => (checkEndpointAvailability ipfsHash q.1 q.2).1.toOption) = _
    exact checkAvailability_filterMap ipfsHash _
  · intro u b hmem hnb hfail
    have hnbc : blocklist.contains u = false := by
      cases hb : blocklist.contains u with
      | false => rfl
      | true => exact absurd (List.elem_iff.mp hb) hnb
    have hqf : (u, b) ∈ endpoints.filter (fun q => !(blocklist.contains q.1)) := by
      rw [List.mem_filter]
      refine ⟨hmem, ?_⟩
      show (!(blocklist.contains u)) = true
      rw [hnbc]
      rfl
    have h2 := (checkEndpointAvailability_characterization ipfsHash u b).2
    have hfl : (u, b) ∈ (endpoints.filter (fun q => !(blocklist.contains q.1))).filter
        (fun q => (checkEndpointAvailability ipfsHash q.1 q.2).2) := by
      rw [List.mem_filter]
      refine ⟨hqf, ?_⟩
      show (checkEndpointAvailability ipfsHash u b).2 = true
      rw [h2, hfail]
      rfl
    show u ∈ blocklist ++
      ((endpoints.filter (fun q => !(blocklist.contains q.1))).filter
        (fun q => (checkEndpointAvailability ipfsHash q.1 q.2).2)).map (fun q => q.1)
    exact List.mem_append_right _ (List.mem_map.mpr ⟨(u, b), hfl, rfl⟩)

/-- A behavior whose status request fails at the transport level. -/
def c5FailBehavior : EndpointBehavior :=
  { statusResp := none, operatorResp := none }

/-- Witness for the prober claim at one concrete failing endpoint. -/
theorem check_availability_spec_witness :
    ("u1", c5FailBehavior) ∈ [("u1", c5FailBehavior)] ∧
    "u1" ∉ ([] : List String) ∧
    specEndpointPasses "QmM" c5FailBehavior = false ∧
    "u1" ∈ (checkAvailability "QmM" [] [("u1", c5FailBehavior)]).blocklist :=
  ⟨by decide, by decide, rfl,
    (check_availability_spec "QmM" [] [("u1", c5FailBehavior)]).2.2 "u1" c5FailBehavior
      (by decide) (by decide) rfl⟩

/-! Claim C7: server startup verification.  The subfile-exchange server
initialize_subfile_server_context (subfile_server/mod.rs lines 76 to
158) verifies every chunk of every chunk file of every subfile before
installing anything; the subfile-cli server version (subfile-cli
subfile_server/mod.rs lines 75 to 108) installs the subfiles read from
IPFS without any verification. -/

/-- Abort reasons of the exchange server startup: the Rust panic from
the out of bounds chunk_hashes index, the explicit panic on a failed
chunk verification, and a read_chunk io error propagated with the
question mark operator. -/
inductive InitError where
  | panicIndexOutOfBounds
  | panicVerificationFailed
  | readChunkError (msg : String)
deriving DecidableEq

/-- One iteration of the verification loop (subfile_server/mod.rs lines
122 to 146): compute the chunk range, read the stored digest (an out of
bounds index panics), read the range from the local file through the
opaque read_chunk, and check it with the opaque verify_chunk. -/
def verifyChunkIndex (readChunk : List String → Nat × Nat → Except String Bytes)
    (verify : Bytes → String → Bool) (filePath : List String) (cf : ChunkFile)
    (i : Nat) : Except InitError Unit :=
  let start := i * cf.chunk_size
  let endPos := min (start + cf.chunk_size) cf.total_bytes - 1
  match cf.chunk_hashes[i]? with
  | none => .error .panicIndexOutOfBounds
  | some chunk_hash =>
    match readChunk filePath (start, endPos) with
    | .error e => .error (.readChunkError e)
    | .ok chunk_data =>
      if verify chunk_data chunk_hash = true then .ok ()
      else .error .panicVerificationFailed

/-- Run the verification loop over a list of chunk indices, stopping at
the first failure as a panic or an early return would. -/
def verifyChunkList (readChunk : List String → Nat × Nat → Except String Bytes)
    (verify : Bytes → String → Bool) (filePath : List String) (cf : ChunkFile) :
    List Nat → Except InitError Unit
  | [] => .ok ()
  | i :: rest =>
    match verifyChunkIndex readChunk verify filePath cf i with
    | .error e => .error e
    | .ok _ => verifyChunkList readChunk verify filePath cf rest

/-- Verify one chunk file: loop index i over
0 .. total_bytes / chunk_size + 1 (subfile_server/mod.rs line 122). -/
def verifyChunkFileRanges (readChunk : List String → Nat × Nat → Except String Bytes)
    (verify : Bytes → String → Bool) (localPath : List String) (cf : ChunkFile) :
    Except InitError Unit :=
  verifyChunkList readChunk verify (localPath ++ [cf.file_name]) cf
    (List.range (cf.total_bytes / cf.chunk_size + 1))

/-- Verify every chunk file of a subfile, in order. -/
def verifySubfileFiles (readChunk : List String → Nat × Nat → Except String Bytes)
    (verify : Bytes → String → Bool) (localPath : List String) :
    List ChunkFile → Except InitError Unit
  | [] => .ok ()
  | cf :: rest =>
    match verifyChunkFileRanges readChunk verify localPath cf with
    | .error e => .error e
    | .ok _ => verifySubfileFiles readChunk verify localPath rest

/-- Read, verify and install each configured subfile in order
(subfile_server/mod.rs lines 106 to 154): a subfile is inserted into
the map only after all its chunks verified, and any failure aborts the
whole initialization. -/
def initEntries (readChunk : List String → Nat × Nat → Except String Bytes)
    (verify : Bytes → String → Bool) :
    List Subfile → Except InitError (List (String × Subfile))
  | [] => .ok []
  | sf :: rest =>
    match verifySubfileFiles readChunk verify sf.local_path sf.chunk_files with
    | .error e => .error e
    | .ok _ =>
      match initEntries readChunk verify rest with
      | .error e => .error e
      | .ok m => .ok ((sf.ipfs_hash, sf) :: m)

/-- initialize_subfile_server_context of the exchange server: verify
all entries and build the server state, with the free query token
stored behind the Bearer prefix. -/
def initializeSubfileServerContext
    (readChunk : List String → Nat × Nat → Except String Bytes)
    (verify : Bytes → String → Bool) (free_query_auth_token : Option String)
    (pk rel : String) (entries : List Subfile) : Except InitError ServerState :=
  match initEntries readChunk verify entries with
  | .error e => .error e
  | .ok m =>
    .ok { operator_public_key := pk
          subfiles := m
          release := rel
          free_query_auth_token := serverAuthTokenConfig free_query_auth_token }

/-- Outcome of init_server (subfile_server/mod.rs lines 37 to 45),
which calls expect on the initialization result: any initialization
error aborts the process. -/
inductive StartupOutcome where
  | started (st : ServerState)
  | panicked

/-- init_server up to binding the listener: a failed initialization
panics through expect. -/
def initServer (readChunk : List String → Nat × Nat → Except String Bytes)
    (verify : Bytes → String → Bool) (free_query_auth_token : Option String)
    (pk rel : String) (entries : List Subfile) : StartupOutcome :=
  match initializeSubfileServerContext readChunk verify free_query_auth_token pk rel entries with
  | .ok st => .started st
  | .error _ => .panicked

/-- The initialization loop of the subfile-cli server (subfile-cli
subfile_server/mod.rs lines 97 to 104): every subfile read from IPFS is
inserted into the map directly, with no chunk verification at all. -/
def cliInitializeSubfileServerContext (entries : List Subfile) : List (String × Subfile) :=
  entries.map (fun sf => (sf.ipfs_hash, sf))

theorem verifyChunkList_ok (readChunk : List String → Nat × Nat → Except String Bytes)
    (verify : Bytes → String → Bool) (filePath : List String) (cf : ChunkFile) :
    ∀ l, verifyChunkList readChunk verify filePath cf l = .ok () →
      ∀ i ∈ l, verifyChunkIndex readChunk verify filePath cf i = .ok () := by
  intro l
  induction l with
  | nil =>
    intro _ i hi
    cases hi
  | cons j rest ih =>
    intro h i hi
    rw [verifyChunkList] at h
    split at h
    · exact Except.noConfusion h
    · next v heq =>
      rcases List.mem_cons.mp hi with rfl | hi2
      · cases v
        exact heq
      · exact ih h i hi2

theorem verifySubfileFiles_ok (readChunk : List String → Nat × Nat → Except String Bytes)
    (verify : Bytes → String → Bool) (localPath : List String) :
    ∀ files, verifySubfileFiles readChunk verify localPath files = .ok () →
      ∀ cf ∈ files, verifyChunkFileRanges readChunk verify localPath cf = .ok () := by
  intro files
  induction files with
  | nil =>
    intro _ cf hcf
    cases hcf
  | cons g rest ih =>
    intro h cf hcf
    rw [verifySubfileFiles] at h
    split at h
    · exact Except.noConfusion h
    · next v heq =>
      rcases List.mem_cons.mp hcf with rfl | h2
      · cases v
        exact heq
      · exact ih h cf h2

theorem initEntries_ok (readChunk : List String → Nat × Nat → Except String Bytes)
    (verify : Bytes → String → Bool) :
    ∀ entries m, initEntries readChunk verify entries = .ok m →
      m = entries.map (fun sf => (sf.ipfs_hash, sf)) ∧
      ∀ sf ∈ entries,
        verifySubfileFiles readChunk verify sf.local_path sf.chunk_files = .ok () := by
  intro entries
  induction entries with
  | nil =>
    intro m h
    cases h
    exact ⟨rfl, fun sf hsf => absurd hsf (List.not_mem_nil sf)⟩
  | cons sf rest ih =>
    intro m h
    rw [initEntries] at h
    split at h
    · exact Except.noConfusion h
    · next v heq1 =>
      split at h
      · exact Except.noConfusion h
      · next m2 heq2 =>
        cases h
        obtain ⟨hm, hall⟩ := ih m2 heq2
        constructor
        · rw [hm]
          rfl
        · intro sf2 hsf2
          rcases List.mem_cons.mp hsf2 with rfl | h2
          · cases v
            exact heq1
          · exact hall sf2 h2

theorem verifyChunkIndex_ok_iff (readChunk : List String → Nat × Nat → Except String Bytes)
    (verify : Bytes → String → Bool) (filePath : List String) (cf : ChunkFile) (i : Nat) :
    verifyChunkIndex readChunk verify filePath cf i = .ok () ↔
      ∃ ch d, cf.chunk_hashes[i]? = some ch ∧
        readChunk filePath (i * cf.chunk_size,
          min (i * cf.chunk_size + cf.chunk_size) cf.total_bytes - 1) = .ok d ∧
        verify d ch = true := by
  constructor
  · intro h
    simp only [verifyChunkIndex] at h
    split at h
    · exact Except.noConfusion h
    · next ch heq1 =>
      split at h
      · exact Except.noConfusion h
      · next d heq2 =>
        split at h
        · next hv => exact ⟨ch, d, heq1, heq2, hv⟩
        · exact Except.noConfusion h
  · rintro ⟨ch, d, h1, h2, h3⟩
    simp [verifyChunkIndex, h1, h2, h3]

theorem initializeSubfileServerContext_ok_spec
    (readChunk : List String → Nat × Nat → Except String Bytes)
    (verify : Bytes → String → Bool) (tok : Option String) (pk rel : String)
    (entries : List Subfile) :
    ∀ st, initializeSubfileServerContext readChunk verify tok pk rel entries = .ok st →
      st.subfiles = entries.map (fun sf => (sf.ipfs_hash, sf)) ∧
      ∀ sf ∈ entries, ∀ cf ∈ sf.chunk_files, ∀ i < cf.total_bytes / cf.chunk_size + 1,
        ∃ ch d, cf.chunk_hashes[i]? = some ch ∧
          readChunk (sf.local_path ++ [cf.file_name]) (i * cf.chunk_size,
            min (i * cf.chunk_size + cf.chunk_size) cf.total_bytes - 1) = .ok d ∧
          verify d ch = true := by
  intro st hst
  rw [initializeSubfileServerContext] at hst
  split at hst
  · exact Except.noConfusion hst
  · next m heq =>
    cases hst
    obtain ⟨hm, hall⟩ := initEntries_ok readChunk verify entries m heq
    refine ⟨hm, ?_⟩
    intro sf hsf cf hcf i hi
    have h1 := verifySubfileFiles_ok readChunk verify sf.local_path sf.chunk_files
      (hall sf hsf) cf hcf
    have h2 := verifyChunkList_ok readChunk verify (sf.local_path ++ [cf.file_name]) cf
      (List.range (cf.total_bytes / cf.chunk_size + 1)) h1 i (List.mem_range.mpr hi)
    exact (verifyChunkIndex_ok_iff readChunk verify (sf.local_path ++ [cf.file_name])
      cf i).mp h2

/-- C7 as amended: for the subfile-exchange server, when startup
succeeds the installed map holds exactly the configured subfiles and
every loop index of every chunk file of every configured subfile was
read from the local directory under the stored file name and passed
verify_chunk before installation; and when any chunk of any configured
subfile fails verification, the startup panics.  (The legacy
subfile-cli server performs no verification; see the counterexample
theorem about cliInitializeSubfileServerContext.) -/
theorem exchange_startup_verifies
    (readChunk : List String → Nat × Nat → Except String Bytes)
    (verify : Bytes → String → Bool) (tok : Option String) (pk rel : String)
    (entries : List Subfile) :
    (∀ st, initializeSubfileServerContext readChunk verify tok pk rel entries = .ok st →
      st.subfiles = entries.map (fun sf => (sf.ipfs_hash, sf)) ∧
      ∀ sf ∈ entries, ∀ cf ∈ sf.chunk_files, ∀ i < cf.total_bytes / cf.chunk_size + 1,
        ∃ ch d, cf.chunk_hashes[i]? = some ch ∧
          readChunk (sf.local_path ++ [cf.file_name]) (i * cf.chunk_size,
            min (i * cf.chunk_size + cf.chunk_size) cf.total_bytes - 1) = .ok d ∧
          verify d ch = true) ∧
    ((∃ sf ∈ entries, ∃ cf ∈ sf.chunk_files, ∃ i, i < cf.total_bytes / cf.chunk_size + 1 ∧
        ∃ ch d, cf.chunk_hashes[i]? = some ch ∧
          readChunk (sf.local_path ++ [cf.file_name]) (i * cf.chunk_size,
            min (i * cf.chunk_size + cf.chunk_size) cf.total_bytes - 1) = .ok d ∧
          verify d ch = false) →
      initServer readChunk verify tok pk rel entries = .panicked) := by
  constructor
  · exact initializeSubfileServerContext_ok_spec readChunk verify tok pk rel entries
  · rintro ⟨sf, hsf, cf, hcf, i, hi, ch, d, h1, h2, h3⟩
    rw [initServer]
    cases hinit : initializeSubfileServerContext readChunk verify tok pk rel entries with
    | error e => rfl
    | ok st =>
      exfalso
      obtain ⟨_, hall⟩ :=
        initializeSubfileServerContext_ok_spec readChunk verify tok pk rel entries st hinit
      obtain ⟨ch2, d2, g1, g2, g3⟩ := hall sf hsf cf hcf i hi
      rw [h1] at g1
      injection g1 with g1e
      subst g1e
      rw [h2] at g2
      injection g2 with g2e
      subst g2e
      rw [g3] at h3
      cases h3

/-- A one chunk file whose single chunk digest is rejected below. -/
def c7BadChunkFile : ChunkFile :=
  { file_name := "f.bin", total_bytes := 1, chunk_size := 1, chunk_hashes := ["digest0"] }

/-- A subfile holding only the bad chunk file. -/
def c7BadSubfile : Subfile :=
  { ipfs_hash := "QmBad", local_path := ["served"], chunk_files := [c7BadChunkFile] }

/-- A digest check rejecting every chunk. -/
def c7RejectAll : Bytes → String → Bool := fun _ _ => false

/-- A reader returning the single byte 0 for every range. -/
def c7Read : List String → Nat × Nat → Except String Bytes := fun _ _ => .ok [0]

/-- Counterexample to C7 as stated about the cited servers: the
subfile-cli server startup (the second code source of the claim)
installs a subfile into the served map although its only chunk fails
verification, reading and checking nothing and panicking on nothing,
while the subfile-exchange startup on the same configuration panics
with the verification failure. -/
theorem cli_startup_installs_unverified :
    cliInitializeSubfileServerContext [c7BadSubfile] = [("QmBad", c7BadSubfile)] ∧
    c7RejectAll [0] "digest0" = false ∧
    c7Read ["served", "f.bin"] (0, 0) = .ok [0] ∧
    initializeSubfileServerContext c7Read c7RejectAll none "pk" "0.1.0" [c7BadSubfile] =
      .error .panicVerificationFailed :=
  ⟨rfl, rfl, rfl, rfl⟩

/-- A one chunk file accepted by the digest check below. -/
def c7GoodChunkFile : ChunkFile :=
  { file_name := "g.bin", total_bytes := 1, chunk_size := 2, chunk_hashes := ["d0"] }

/-- A subfile holding only the good chunk file. -/
def c7GoodSubfile : Subfile :=
  { ipfs_hash := "QmGood", local_path := ["dir"], chunk_files := [c7GoodChunkFile] }

/-- A digest check accepting every chunk. -/
def c7AcceptAll : Bytes → String → Bool := fun _ _ => true

/-- The state the exchange startup builds for the good subfile. -/
def c7GoodState : ServerState :=
  { operator_public_key := "pk"
    subfiles := [("QmGood", c7GoodSubfile)]
    release := "0.1.0"
    free_query_auth_token := none }

/-- Witness for the amended startup claim at a concrete succeeding
configuration. -/
theorem exchange_startup_verifies_witness :
    initializeSubfileServerContext c7Read c7AcceptAll none "pk" "0.1.0" [c7GoodSubfile] =
      .ok c7GoodState ∧
    (c7GoodState.subfiles = [c7GoodSubfile].map (fun sf => (sf.ipfs_hash, sf)) ∧
      ∀ sf ∈ [c7GoodSubfile], ∀ cf ∈ sf.chunk_files,
        ∀ i < cf.total_bytes / cf.chunk_size + 1,
        ∃ ch d, cf.chunk_hashes[i]? = some ch ∧
          c7Read (sf.local_path ++ [cf.file_name]) (i * cf.chunk_size,
            min (i * cf.chunk_size + cf.chunk_size) cf.total_bytes - 1) = .ok d ∧
          c7AcceptAll d ch = true) :=
  ⟨rfl,
   (exchange_startup_verifies c7Read c7AcceptAll none "pk" "0.1.0" [c7GoodSubfile]).1
     c7GoodState rfl⟩

/-! Claim C8: download_subfile (subfile_client/mod.rs lines 127 to
152). -/

/-- The error of download_subfile: either the manifest fetch failed, or
some chunk files stayed incomplete and their errors were aggregated
into one message. -/
inductive DownloadSubfileError where
  | fetchError (e : String)
  | incompleteFiles (errs : List String)
deriving DecidableEq

/-- download_subfile: read the subfile manifest (the ipfs result is
given as fetch), then try download_chunk_file (given as dl) on every
file of the manifest in order, pushing the error of every failed file
onto incomplete_files; succeed exactly when the list stayed empty, and
otherwise return the aggregated failures. -/
def downloadSubfile (fetch : Except String SubfileManifest)
    (dl : FileMetaInfo → Except String ChunkFileMeta) : Except DownloadSubfileError Unit :=
  match fetch with
  | .error e => .error (.fetchError e)
  | .ok subfile =>
    let incomplete_files := subfile.files.foldl
      (fun acc chunk_file =>
        match dl chunk_file with
        | .ok _ => acc
        | .error e => acc ++ [e]) []
    if incomplete_files.isEmpty then .ok ()
    else .error (.incompleteFiles incomplete_files)

theorem downloadSubfile_foldl (dl : FileMetaInfo → Except String ChunkFileMeta) :
    ∀ (files : List FileMetaInfo) (acc : List String),
      files.foldl
        (fun acc chunk_file =>
          match dl chunk_file with
          | .ok _ => acc
          | .error e => acc ++ [e]) acc =
      acc ++ files.filterMap
        (fun f => match dl f with | .ok _ => none | .error e => some e) := by
  intro files
  induction files with
  | nil =>
    intro acc
    simp
  | cons f rest ih =>
    intro acc
    rw [List.foldl_cons, List.filterMap_cons]
    cases hf : dl f with
    | ok c => simp [hf, ih acc]
    | error e => simp [hf, ih (acc ++ [e]), List.append_assoc]

/-- C8: with a fetched manifest, download_subfile returns Ok exactly
when download_chunk_file succeeds on every file of the manifest, and
when some file fails the returned error aggregates the errors of all
failing files of the whole list in order, so one failure does not stop
the remaining files from being attempted. -/
theorem download_subfile_aggregates (m : SubfileManifest)
    (dl : FileMetaInfo → Except String ChunkFileMeta) :
    (downloadSubfile (.ok m) dl = .ok () ↔ ∀ f ∈ m.files, ∃ c, dl f = .ok c) ∧
    ((∃ f ∈ m.files, ∀ c, ¬ dl f = .ok c) →
      downloadSubfile (.ok m) dl = .error (.incompleteFiles
        (m.files.filterMap
          (fun f => match dl f with | .ok _ => none | .error e => some e)))) := by
  have hF := downloadSubfile_foldl dl m.files []
  rw [List.nil_append] at hF
  have hraw : downloadSubfile (.ok m) dl =
      (if (m.files.foldl
          (fun acc chunk_file =>
            match dl chunk_file with
            | .ok _ => acc
            | .error e => acc ++ [e]) []).isEmpty
        then Except.ok ()
        else Except.error (DownloadSubfileError.incompleteFiles (m.files.foldl
          (fun acc chunk_file =>
            match dl chunk_file with
            | .ok _ => acc
            | .error e => acc ++ [e]) []))) := rfl
  rw [hF] at hraw
  have hE : m.files.filterMap
      (fun f => match dl f with | .ok _ => none | .error e => some e) = []
      ↔ ∀ f ∈ m.files, ∃ c, dl f = .ok c := by
    rw [List.filterMap_eq_nil_iff]
    constructor
    · intro h f hf
      have hnone := h f hf
      cases hdf : dl f with
      | ok c => exact ⟨c, rfl⟩
      | error e =>
        rw [hdf] at hnone
        cases hnone
    · intro h f hf
      obtain ⟨c, hc⟩ := h f hf
      simp [hc]
  rw [hraw]
  constructor
  · rw [← hE]
    by_cases hEmp : (m.files.filterMap
        (fun f => match dl f with | .ok _ => none | .error e => some e)).isEmpty = true
    · rw [if_pos hEmp]
      simp [List.isEmpty_iff.mp hEmp]
    · rw [if_neg hEmp]
      constructor
      · intro h
        cases h
      · intro h
        exact absurd (List.isEmpty_iff.mpr h) hEmp
  · rintro ⟨f, hf, hfail⟩
    have hne : ¬ m.files.filterMap
        (fun f => match dl f with | .ok _ => none | .error e => some e) = [] := by
      intro hnil
      obtain ⟨c, hc⟩ := hE.mp hnil f hf
      exact hfail c hc
    rw [if_neg (fun hEmp => hne (List.isEmpty_iff.mp hEmp))]

/-- A manifest with two files, used for the aggregation witness. -/
def c8Manifest : SubfileManifest :=
  { files := [{ name := "a.bin", hash := "QmA" }, { name := "b.bin", hash := "QmB" }]
    file_type := "flatfiles"
    spec_version := "0.0.0"
    description := "d"
    chain_id := "1"
    block_range := { start_block := 0, end_block := none } }

/-- The chunk file meta returned for the first manifest file below. -/
def c8MetaA : ChunkFileMeta :=
  { meta_info := { name := "a.bin", hash := "QmA" }
    chunk_file :=
      { file_name := "a.bin", total_bytes := 1, chunk_size := 1, chunk_hashes := ["h"] } }

/-- A download function failing exactly on the second file. -/
def c8Download : FileMetaInfo → Except String ChunkFileMeta :=
  fun f => if f.hash == "QmA" then .ok c8MetaA else .error "Failed chunks"

/-- Witness for the aggregation claim at a concrete manifest where the
second file fails. -/
theorem download_subfile_aggregates_witness :
    (∃ f ∈ c8Manifest.files, ∀ c, ¬ c8Download f = .ok c) ∧
    downloadSubfile (.ok c8Manifest) c8Download = .error (.incompleteFiles
      (c8Manifest.files.filterMap
        (fun f => match c8Download f with | .ok _ => none | .error e => some e))) := by
  have hfail : ∀ c, ¬ c8Download { name := "b.bin", hash := "QmB" } = .ok c := by
    intro c hc
    cases hc
  have hmem : ({ name := "b.bin", hash := "QmB" } : FileMetaInfo) ∈ c8Manifest.files := by
    decide
  exact ⟨⟨_, hmem, hfail⟩,
    (download_subfile_aggregates c8Manifest c8Download).2 ⟨_, hmem, hfail⟩⟩

/-! Claim C9: the publisher (publisher.rs).  The chunking and
serialization of one file (ChunkFile::new inside write_chunk_file) and
the content store add call are opaque collaborators passed as
functions; next to its result every embedded function returns the
ordered list of payloads it handed to add. -/

/-- PublisherArgs: the configuration fields read by the embedded
publisher functions. -/
structure PublisherArgs where
  file_names : List String
  file_type : String
  file_version : String
  description : String
  chain_id : String
  start_block : Nat
  end_block : Option Nat
deriving DecidableEq

/-- hash_and_publish_file (publisher.rs lines 21 to 34): chunk and
serialize one file through the opaque writeChunkFile, then add the
yaml document to the store; the first component records the payloads
handed to add. -/
def hashAndPublishFile (writeChunkFile : String → Except String String)
    (add : String → Except String String) (file_name : String) :
    List String × Except String String :=
  match writeChunkFile file_name with
  | .error e => ([], .error e)
  | .ok yaml =>
    match add yaml with
    | .error e => ([yaml], .error e)
    | .ok h => ([yaml], .ok h)

/-- hash_and_publish_files (publisher.rs lines 36 to 54): process the
configured files in order, stopping at the first error exactly as the
question mark operator does, collecting the FileMetaInfo entries. -/
def hashAndPublishFiles (writeChunkFile : String → Except String String)
    (add : String → Except String String) :
    List String → List String × Except String (List FileMetaInfo)
  | [] => ([], .ok [])
  | f :: rest =>
    match hashAndPublishFile writeChunkFile add f with
    | (calls, .error e) => (calls, .error e)
    | (calls, .ok h) =>
      match hashAndPublishFiles writeChunkFile add rest with
      | (calls2, .error e) => (calls ++ calls2, .error e)
      | (calls2, .ok metas) => (calls ++ calls2, .ok ({ name := f, hash := h } :: metas))

/-- construct_subfile_manifest (publisher.rs lines 56 to 73): build the
manifest from the configuration and the collected entries and
serialize it through the opaque serialize function. -/
def construct_subfile_manifest (serialize : SubfileManifest → Except String String)
    (config : PublisherArgs) (file_meta_info : List FileMetaInfo) : Except String String :=
  serialize
    { files := file_meta_info
      file_type := config.file_type
      spec_version := config.file_version
      description := config.description
      chain_id := config.chain_id
      block_range := { start_block := config.start_block, end_block := config.end_block } }

/-- publish (publisher.rs lines 88 to 111): publish every configured
file, then construct the manifest and add it to the store; any earlier
error is returned unchanged and skips every remaining step. -/
def publish (writeChunkFile : String → Except String String)
    (add : String → Except String String)
    (serialize : SubfileManifest → Except String String) (config : PublisherArgs) :
    List String × Except String String :=
  match hashAndPublishFiles writeChunkFile add config.file_names with
  | (calls, .error e) => (calls, .error e)
  | (calls, .ok meta_info) =>
    match construct_subfile_manifest serialize config meta_info with
    | .error e => (calls, .error e)
    | .ok manifest_yaml =>
      match add manifest_yaml with
      | .error e => (calls ++ [manifest_yaml], .error e)
      | .ok ipfs_hash => (calls ++ [manifest_yaml], .ok ipfs_hash)

theorem hashAndPublishFiles_ok_all (writeChunkFile add : String → Except String String) :
    ∀ files calls metas, hashAndPublishFiles writeChunkFile add files = (calls, .ok metas) →
      ∀ g ∈ files, ∃ h, (hashAndPublishFile writeChunkFile add g).2 = .ok h := by
  intro files
  induction files with
  | nil =>
    intro _ _ _ g hg
    cases hg
  | cons f rest ih =>
    intro calls metas heq g hg
    rw [hashAndPublishFiles] at heq
    split at heq
    · next callsf e heqf =>
      injection heq with h1 h2
      exact Except.noConfusion h2
    · next callsf hh heqf =>
      split at heq
      · next callsr e heqr =>
        injection heq with h1 h2
        exact Except.noConfusion h2
      · next callsr metasr heqr =>
        rcases List.mem_cons.mp hg with rfl | hg2
        · refine ⟨hh, ?_⟩
          rw [heqf]
        · exact ih callsr metasr heqr g hg2

theorem hashAndPublishFiles_first_error (writeChunkFile add : String → Except String String) :
    ∀ pre f post e,
      (∀ g ∈ pre, ∃ h, (hashAndPublishFile writeChunkFile add g).2 = .ok h) →
      (hashAndPublishFile writeChunkFile add f).2 = .error e →
      hashAndPublishFiles writeChunkFile add (pre ++ f :: post) =
        (pre.flatMap (fun g => (hashAndPublishFile writeChunkFile add g).1) ++
          (hashAndPublishFile writeChunkFile add f).1, .error e) := by
  intro pre
  induction pre with
  | nil =>
    intro f post e _ hf
    rw [List.nil_append, hashAndPublishFiles]
    cases hpair : hashAndPublishFile writeChunkFile add f with
    | mk callsf resf =>
      have hres : resf = .error e := by
        rw [hpair] at hf
        exact hf
      subst hres
      simp
  | cons g pre ih =>
    intro f post e hpre hf
    obtain ⟨hh, hg⟩ := hpre g (List.mem_cons_self g pre)
    have hpre2 : ∀ g2 ∈ pre, ∃ h2, (hashAndPublishFile writeChunkFile add g2).2 = .ok h2 :=
      fun g2 hm => hpre g2 (List.mem_cons_of_mem g hm)
    rw [List.cons_append, hashAndPublishFiles]
    cases hpair : hashAndPublishFile writeChunkFile add g with
    | mk callsg resg =>
      have hres : resg = .ok hh := by
        rw [hpair] at hg
        exact hg
      subst hres
      rw [ih f post e hpre2 hf]
      rw [List.flatMap_cons, hpair]
      simp [List.append_assoc]

/-- C9: if chunking or uploading any configured file fails, publish
returns that first underlying error and the trace of store add calls
consists solely of the chunk file documents of the files up to and
including the failing one, so the manifest is never added to the
store; and when publish succeeds, every configured file was chunked
and added successfully before the manifest was added. -/
theorem publish_no_partial_manifest (writeChunkFile add : String → Except String String)
    (serialize : SubfileManifest → Except String String) (config : PublisherArgs) :
    (∀ pre f post e, config.file_names = pre ++ f :: post →
      (∀ g ∈ pre, ∃ h, (hashAndPublishFile writeChunkFile add g).2 = .ok h) →
      (hashAndPublishFile writeChunkFile add f).2 = .error e →
      publish writeChunkFile add serialize config =
        (pre.flatMap (fun g => (hashAndPublishFile writeChunkFile add g).1) ++
          (hashAndPublishFile writeChunkFile add f).1, .error e)) ∧
    (∀ h, (publish writeChunkFile add serialize config).2 = .ok h →
      ∀ g ∈ config.file_names, ∃ hh, (hashAndPublishFile writeChunkFile add g).2 = .ok hh) := by
  constructor
  · intro pre f post e hsplit hpre hf
    have hfe := hashAndPublishFiles_first_error writeChunkFile add pre f post e hpre hf
    rw [publish, hsplit, hfe]
  · intro h hok g hg
    rw [publish] at hok
    split at hok
    · next calls e heqf =>
      exact Except.noConfusion hok
    · next calls metas heqf =>
      exact hashAndPublishFiles_ok_all writeChunkFile add config.file_names calls metas
        heqf g hg

/-- Publisher arguments with three configured files. -/
def c9Args : PublisherArgs :=
  { file_names := ["a", "b", "c"]
    file_type := "flatfiles"
    file_version := "0.0.0"
    description := "d"
    chain_id := "1"
    start_block := 0
    end_block := none }

/-- A chunker serializing file x to the document Yx. -/
def c9WriteChunkFile : String → Except String String := fun f => .ok ("Y" ++ f)

/-- A store add that fails exactly on the document of file b. -/
def c9Add : String → Except String String :=
  fun y => if y == "Yb" then .error "add failed" else .ok ("Qm" ++ y)

/-- A manifest serializer that always succeeds. -/
def c9Serialize : SubfileManifest → Except String String := fun _ => .ok "MANIFEST"

/-- Witness for the publisher claim at a concrete configuration where
the second file fails to upload. -/
theorem publish_no_partial_manifest_witness :
    c9Args.file_names = ["a"] ++ "b" :: ["c"] ∧
    (∀ g ∈ ["a"], ∃ h, (hashAndPublishFile c9WriteChunkFile c9Add g).2 = .ok h) ∧
    (hashAndPublishFile c9WriteChunkFile c9Add "b").2 = .error "add failed" ∧
    publish c9WriteChunkFile c9Add c9Serialize c9Args =
      ((["a"] : List String).flatMap (fun g => (hashAndPublishFile c9WriteChunkFile c9Add g).1) ++
        (hashAndPublishFile c9WriteChunkFile c9Add "b").1, .error "add failed") := by
  have hpre : ∀ g ∈ ["a"], ∃ h, (hashAndPublishFile c9WriteChunkFile c9Add g).2 = .ok h := by
    intro g hg
    rcases List.mem_singleton.mp hg with rfl
    exact ⟨"QmYa", rfl⟩
  refine ⟨rfl, hpre, rfl, ?_⟩
  exact (publish_no_partial_manifest c9WriteChunkFile c9Add c9Serialize c9Args).1
    ["a"] "b" ["c"] "add failed" rfl hpre rfl

/-- A served subfile rooted at the directory dir. -/
def c2Subfile : Subfile :=
  { ipfs_hash := "QmSub", local_path := ["dir"], chunk_files := [] }

/-- A server state without a free query token serving one subfile. -/
def c2State : ServerState :=
  { operator_public_key := "pk"
    subfiles := [("QmSub", c2Subfile)]
    release := "0.1.0"
    free_query_auth_token := none }

/-- Headers carrying a file_name entry, as the server expects. -/
def c2Headers : List (String × String) := [("file_name", "f.bin")]

/-- Witness for the header naming claim at a concrete request and a
concrete server state. -/
theorem downloader_file_hash_server_file_name_witness :
    List.lookup "QmSub" c2State.subfiles = some c2Subfile ∧
    lookupHeader c2Headers "file_name" = some "f.bin" ∧
    (fileService c2State "QmSub" c2Headers = .unauthorized ∨
      servedPath (fileService c2State "QmSub" c2Headers) =
        some (c2Subfile.local_path ++ ["f.bin"])) :=
  ⟨rfl, rfl,
   (downloader_file_hash_server_file_name "QmChunk" 0 3 "Bearer t").2.2.2
     c2State "QmSub" c2Headers c2Subfile "f.bin" rfl rfl⟩

/-- Witness for the authorization claim at a concrete server state and
concrete headers. -/
theorem file_service_free_query_auth_witness :
    (isUnauthorized (fileService
        { operator_public_key := "pk", subfiles := [("QmSub", c2Subfile)],
          release := "0.1.0",
          free_query_auth_token := serverAuthTokenConfig (some "tok") } "QmSub"
        [("Authorization", "Bearer tok"), ("file_name", "f.bin")]) = false
      ↔ lookupHeader [("Authorization", "Bearer tok"), ("file_name", "f.bin")]
          "Authorization" = some ("Bearer " ++ "tok")) ∧
    isUnauthorized (fileService
        { operator_public_key := "pk", subfiles := [("QmSub", c2Subfile)],
          release := "0.1.0",
          free_query_auth_token := serverAuthTokenConfig none } "QmSub"
        [("Authorization", "Bearer tok"), ("file_name", "f.bin")]) = false :=
  file_service_free_query_auth "pk" "0.1.0" [("QmSub", c2Subfile)] "tok" "QmSub"
    [("Authorization", "Bearer tok"), ("file_name", "f.bin")]
